import Mathlib

/-!
# kt-connect: `pkg/kt/service/cluster/service.go`

A shallow embedding of the service operations of the `cluster` package
(`GetServicesBySelector`, `CreateService`, `UpdateServiceHeartBeat`,
`WatchService`) and the properties proved about them.

Conventions of the embedding

* The cluster behind `k.Clientset` is a state of an arbitrary type `σ`; the
  typed client is a record of functions on `σ` (`Clientset σ`).
* Every call that leaves this file (client calls, `SetupHeartBeat`, the logger)
  is appended to `World.trace`, in program order.
* A Go pointer that the code may find nil is an `Option`; a run-time panic
  raised by a statement of this file is `Except.error`.
* Pure helpers of the package that are declared in other files are the fields
  of `Helpers`.
-/

namespace KtConnect

/-! ## Data model -/

/-- Go `map[string]string`. -/
abbrev StringMap := List (String × String)

/-- The part of `coreV1.ServiceSpec` this file reads. -/
structure ServiceSpec where
  Selector : StringMap
deriving DecidableEq, Repr

/-- The part of `coreV1.Service` this file reads: object name, namespace and spec. -/
structure Service where
  Name : String
  Namespace : String
  Spec : ServiceSpec
deriving DecidableEq, Repr

/-- The fields of `ResourceMeta` that `CreateService` reads. -/
structure ResourceMeta where
  Name : String
  Namespace : String
deriving DecidableEq, Repr

/-- The struct `SvcMetaAndSpec`; `Meta` is a pointer and may be nil. -/
structure SvcMetaAndSpec where
  Meta : Option ResourceMeta
  External : Bool
  Ports : List (Int × Int)
  Selectors : StringMap
deriving DecidableEq, Repr

/-- A Go `error` value returned by the cluster client. -/
structure ApiError where
  msg : String
deriving DecidableEq, Repr

/-- Run-time panics the statements of this file can raise. -/
inductive Panic where
  | nilPointerDereference
  | typeAssertion
deriving DecidableEq, Repr

/-- The patch types of `k8s.io/apimachinery/pkg/types`. -/
inductive PatchType where
  | JSONPatchType
  | MergePatchType
  | StrategicMergePatchType
  | ApplyPatchType
deriving DecidableEq, Repr

/-- The `metav1.ListOptions` fields that matter here; the zero value is `ListOptions.empty`. -/
structure ListOptions where
  LabelSelector : String
  FieldSelector : String
deriving DecidableEq, Repr

/-- The literal `metav1.ListOptions` with no field set. -/
def ListOptions.empty : ListOptions := ⟨"", ""⟩

/-- Levels of the zerolog calls made in this file. -/
inductive LogLevel where
  | debug
  | warn
deriving DecidableEq, Repr

/-- The updater handed to `SetupHeartBeat`; this file only ever passes the method
value `k.UpdateServiceHeartBeat`. -/
inductive Updater where
  | UpdateServiceHeartBeat
deriving DecidableEq, Repr

/-- A call that leaves this file, as recorded in `World.trace`. -/
inductive Effect where
  /-- The call `SetupHeartBeat(name, namespace, updater)`. -/
  | setupHeartBeat (name ns : String) (updater : Updater)
  /-- The call `Services(ns).Get(ctx, name, GetOptions)`. -/
  | get (ns name : String)
  /-- The call `Services(ns).List(ctx, opts)`. -/
  | list (ns : String) (opts : ListOptions)
  /-- The call `Services(ns).Create(ctx, svc, CreateOptions)`. -/
  | create (ns : String) (svc : Service)
  /-- The call `Services(ns).Patch(ctx, name, pt, data, PatchOptions)`. -/
  | patch (ns name : String) (pt : PatchType) (data : String)
  /-- A zerolog message, with the error attached by `.Err(err)` if any. -/
  | log (level : LogLevel) (msg : String) (err : Option ApiError)
deriving DecidableEq, Repr

/-- A clock reading (`time.Now()`). -/
abbrev Time := Nat

/-- The typed service client `k.Clientset.CoreV1().Services(ns)` over a cluster
state `σ`.  `List` is a read and leaves the state alone; the generated client
allocates the result list before the request, so a list comes back next to the
error as well.  `Create` and `Patch` return the `(*Service, error)` pair and the
next cluster state. -/
structure Clientset (σ : Type) where
  List : σ → String → ListOptions → List Service × Option ApiError
  Create : σ → String → Service → (Option Service × Option ApiError) × σ
  Patch : σ → String → String → PatchType → String → (Option Service × Option ApiError) × σ

/-- The receiver `k *Kubernetes`. -/
structure Kubernetes (σ : Type) where
  Clientset : Clientset σ

/-- Modelled from the spec: the package functions `util.MapContains`,
`createService`, `formattedTime` and `resourceHeartbeatPatch` are declared
outside this file and are taken as parameters.  `formattedTime()` and
`resourceHeartbeatPatch()` take no argument and have no receiver; following the
spec's patch encoder (a pure function with no inputs beyond "now") they are
functions of the clock reading alone. -/
structure Helpers where
  MapContains : StringMap → StringMap → Bool
  createService : SvcMetaAndSpec → Service
  formattedTime : Time → String
  resourceHeartbeatPatch : Time → String

/-- What a call of this file runs against: the cluster state, the clock and the
calls made so far. -/
structure World (σ : Type) where
  store : σ
  now : Time
  trace : List Effect

/-- Record one outgoing call. -/
def World.emit {σ : Type} (w : World σ) (e : Effect) : World σ :=
  { w with trace := w.trace ++ [e] }

/-! ## Listing and selecting services -/

/-- The method `GetAllServiceInNamespace`: one `List` call with empty options. -/
def GetAllServiceInNamespace {σ : Type} (k : Kubernetes σ) (ns : String) (w : World σ) :
    (List Service × Option ApiError) × World σ :=
  (k.Clientset.List w.store ns ListOptions.empty, w.emit (.list ns ListOptions.empty))

/-- The `for _, svc := range svcList.Items` loop of `GetServicesBySelector`:
`matchedSvcs` starts nil and each matching service is appended. -/
def matchLoop (h : Helpers) (matchLabels : StringMap) (items : List Service) : List Service :=
  items.foldl
    (fun matchedSvcs svc =>
      if h.MapContains svc.Spec.Selector matchLabels then matchedSvcs ++ [svc] else matchedSvcs)
    []

/-- The method `GetServicesBySelector`: list the namespace, give up on an error,
otherwise keep the services whose selector contains `matchLabels`. -/
def GetServicesBySelector {σ : Type} (h : Helpers) (k : Kubernetes σ)
    (matchLabels : StringMap) (ns : String) (w : World σ) :
    (List Service × Option ApiError) × World σ :=
  let r := GetAllServiceInNamespace k ns w
  match r.1.2 with
  | some err => (([], some err), r.2)
  | none => ((matchLoop h matchLabels r.1.1, none), r.2)

/-- The reference definition of claim C5, over the outcome `listing` of listing
all services of the namespace: the error alone when listing failed, otherwise
the listed services satisfying `MapContains(svc.Spec.Selector, matchLabels)`. -/
def GetServicesBySelector_ref (MapContains : StringMap → StringMap → Bool)
    (listing : List Service × Option ApiError) (matchLabels : StringMap) :
    List Service × Option ApiError :=
  match listing.2 with
  | some e => ([], some e)
  | none => (listing.1.filter (fun svc => MapContains svc.Spec.Selector matchLabels), none)

/-! ## Creating a service -/

/-- The method `CreateService`.  The arguments of `SetupHeartBeat` are evaluated first (a
nil `Meta` panics there), then `SetupHeartBeat` is called, then the service is
built by `createService` and sent with `Create`, whose pair is returned. -/
def CreateService {σ : Type} (h : Helpers) (k : Kubernetes σ) (metaAndSpec : SvcMetaAndSpec)
    (w : World σ) : Except Panic ((Option Service × Option ApiError) × World σ) :=
  match metaAndSpec.Meta with
  | none => .error .nilPointerDereference
  | some m =>
    let w1 := w.emit (.setupHeartBeat m.Name m.Namespace .UpdateServiceHeartBeat)
    let svc := h.createService metaAndSpec
    let r := k.Clientset.Create w1.store m.Namespace svc
    .ok (r.1, { (w1.emit (.create m.Namespace svc)) with store := r.2 })

/-! ## One heartbeat tick -/

/-- The method `UpdateServiceHeartBeat`: a debug line, one `Patch`, and a warning when the
patch returned an error.  The function has no result value. -/
def UpdateServiceHeartBeat {σ : Type} (h : Helpers) (k : Kubernetes σ) (name ns : String)
    (w : World σ) : Except Panic (World σ) :=
  let w1 := w.emit
    (.log .debug ("Heartbeat service " ++ name ++ " ticked at " ++ h.formattedTime w.now) none)
  let data := h.resourceHeartbeatPatch w1.now
  let r := k.Clientset.Patch w1.store ns name .JSONPatchType data
  let w2 : World σ := { (w1.emit (.patch ns name .JSONPatchType data)) with store := r.2 }
  match r.1.2 with
  | some err => .ok (w2.emit (.log .warn "Failed to update service heart beat" (some err)))
  | none => .ok w2

/-- Modelled from the spec: the timer that `SetupHeartBeat` starts is declared
outside this file; the spec has it invoke the patch function on each tick.  Here
are successive ticks, one per clock reading, each a call of the updater
`k.UpdateServiceHeartBeat(name, namespace)`; the updater has no result value, so
only a panic of a tick could end the sequence. -/
def heartBeatTicks {σ : Type} (h : Helpers) (k : Kubernetes σ) (name ns : String) :
    List Time → World σ → Except Panic (World σ)
  | [], w => .ok w
  | t :: ts, w =>
    match UpdateServiceHeartBeat h k name ns { w with now := t } with
    | .ok w' => heartBeatTicks h k name ns ts w'
    | .error p => .error p

/-! ## Field selectors (`k8s.io/apimachinery/pkg/fields`)

`WatchService` builds a `fields.Selector` and hands it to
`cache.NewListWatchFromClient`, which keeps only its `String()` form: the
options modifier of the list-watch sets `options.FieldSelector` to that string on
every list and watch request, and the API server parses the string back
(`ParseSelector`) to filter the objects it returns. -/

namespace fields

/-- The selector values this file builds: `nothingSelector` and `hasTerm`. -/
inductive Selector where
  | nothing
  | hasTerm (field value : String)
deriving DecidableEq, Repr

/-- The constructor `fields.Nothing()`. -/
def Nothing : Selector := .nothing

/-- The constructor `fields.OneTermEqualSelector(k, v)`. -/
def OneTermEqualSelector (k v : String) : Selector := .hasTerm k v

/-- A field set: the value of each field label, empty when the label is absent. -/
abbrev Fields := String → String

/-- The `Matches` method: `nothingSelector` matches no field set, `hasTerm`
compares one field. -/
def Selector.Matches : Selector → Fields → Bool
  | .nothing, _ => false
  | .hasTerm f v, ls => ls f == v

/-- The replacer of `EscapeValue`: a backslash before each backslash, comma and
equals sign. -/
def escapeChars : List Char → List Char
  | [] => []
  | c :: cs =>
    if c = '\\' ∨ c = ',' ∨ c = '=' then '\\' :: c :: escapeChars cs else c :: escapeChars cs

/-- The function `EscapeValue`. -/
def EscapeValue (s : String) : String := ⟨escapeChars s.data⟩

/-- The `String()` method: empty for `nothingSelector`, `field=escaped value`
for `hasTerm`. -/
def Selector.toString : Selector → String
  | .nothing => ""
  | .hasTerm f v => f ++ "=" ++ EscapeValue v

/-- The loop of `UnescapeValue`, with its `inSlash` flag; `none` is an error. -/
def unescapeChars : Bool → List Char → Option (List Char)
  | false, [] => some []
  | true, [] => none
  | true, c :: cs =>
    if c = '\\' ∨ c = ',' ∨ c = '=' then (unescapeChars false cs).map (fun r => c :: r) else none
  | false, c :: cs =>
    if c = '\\' then unescapeChars true cs
    else if c = ',' ∨ c = '=' then none
    else (unescapeChars false cs).map (fun r => c :: r)

/-- The loop of `splitTerms`: cut at each comma that is not escaped; `cur` is
the term read since the last cut. -/
def splitTermsAux : Bool → List Char → List Char → List (List Char)
  | _, cur, [] => [cur]
  | true, cur, c :: cs => splitTermsAux false (cur ++ [c]) cs
  | false, cur, c :: cs =>
    if c = '\\' then splitTermsAux true (cur ++ [c]) cs
    else if c = ',' then cur :: splitTermsAux false [] cs
    else splitTermsAux false (cur ++ [c]) cs

/-- The function `splitTerms`: no term for the empty string. -/
def splitTerms (fieldSelector : List Char) : List (List Char) :=
  if fieldSelector = [] then [] else splitTermsAux false [] fieldSelector

/-- The operators of a term. -/
inductive Operator where
  | notEqual
  | doubleEqual
  | equal
deriving DecidableEq, Repr

/-- The table `termOperators`: the operators with their text, in the order they are tried
(the double equals before the single one). -/
def termOperators : List (List Char × Operator) :=
  [(['!', '='], .notEqual), (['=', '='], .doubleEqual), (['='], .equal)]

/-- The function `splitTerm`: cut at the first position where the remaining text starts with
an operator; `lhs` is what was read before that position. -/
def splitTerm : List Char → List Char → Option (List Char × Operator × List Char)
  | _, [] => none
  | lhs, c :: cs =>
    match termOperators.find? (fun op => op.1.isPrefixOf (c :: cs)) with
    | some op => some (lhs, op.2, (c :: cs).drop op.1.length)
    | none => splitTerm (lhs ++ [c]) cs

/-- One term of a parsed selector. -/
structure Requirement where
  field : String
  operator : Operator
  value : String
deriving DecidableEq, Repr

/-- The loop of `parseSelector` over the terms: empty terms are skipped, a term
without operator or with a bad escape is an error. -/
def parseTerms : List (List Char) → Option (List Requirement)
  | [] => some []
  | part :: parts =>
    if part = [] then parseTerms parts
    else
      match splitTerm [] part with
      | none => none
      | some (lhs, op, rhs) =>
        match unescapeChars false rhs with
        | none => none
        | some v => (parseTerms parts).map (fun items => ⟨⟨lhs⟩, op, ⟨v⟩⟩ :: items)

/-- The function `ParseSelector`: the conjunction of the terms of the string (the order of the
terms, which the library sorts, does not matter to a conjunction). -/
def ParseSelector (selector : String) : Option (List Requirement) :=
  parseTerms (splitTerms selector.data)

/-- Whether a field set satisfies one term. -/
def Requirement.Matches (r : Requirement) (ls : Fields) : Bool :=
  match r.operator with
  | .notEqual => ls r.field != r.value
  | .doubleEqual => ls r.field == r.value
  | .equal => ls r.field == r.value

/-- What a request carrying `fieldSelector` returns of an object with field set
`ls`: the object passes when the string parses and every term holds; the empty
string has no term and lets every object pass. -/
def selects (fieldSelector : String) (ls : Fields) : Bool :=
  match ParseSelector fieldSelector with
  | none => false
  | some items => items.all (fun r => r.Matches ls)

end fields

/-- The field set of a service the server matches field selectors against. -/
def Service.fieldSet (svc : Service) : fields.Fields := fun label =>
  if label = "metadata.name" then svc.Name
  else if label = "metadata.namespace" then svc.Namespace
  else ""

/-! ## The list-watch and the informer (`k8s.io/client-go/tools/cache`) -/

namespace cache

/-- What `NewListWatchFromClient` fixes for every request of the list-watch: the
resource, the namespace and the field-selector string. -/
structure ListWatch where
  resource : String
  ns : String
  FieldSelector : String
deriving DecidableEq, Repr

/-- The constructor `cache.NewListWatchFromClient(c, resource, namespace, fieldSelector)`. -/
def NewListWatchFromClient (resource ns : String) (fieldSelector : fields.Selector) :
    ListWatch :=
  ⟨resource, ns, fieldSelector.toString⟩

/-- Whether the server-side filter of the list-watch lets a service through. -/
def ListWatch.selects (lw : ListWatch) (svc : Service) : Bool :=
  fields.selects lw.FieldSelector svc.fieldSet

/-- An `interface{}` value handed to an event handler: a `*coreV1.Service`
(possibly a nil pointer), a `cache.DeletedFinalStateUnknown` tombstone, the nil
interface, or a value of another type. -/
inductive Obj where
  | service (p : Option Service)
  | deletedFinalStateUnknown (key : String) (last : Option Service)
  | nil
  | other (typeName : String)
deriving DecidableEq, Repr

/-- The three functions of a `cache.ResourceEventHandlerFuncs` literal, acting
on the caller's state `σ`. -/
structure ResourceEventHandlerFuncs (σ : Type) where
  AddFunc : Obj → σ → Except Panic σ
  DeleteFunc : Obj → σ → Except Panic σ
  UpdateFunc : Obj → Obj → σ → Except Panic σ

/-- An event of the informer. -/
inductive Event where
  | add (obj : Obj)
  | delete (obj : Obj)
  | update (oldObj newObj : Obj)
deriving DecidableEq, Repr

/-- The informer hands one event to the registered handlers. -/
def deliver {σ : Type} (h : ResourceEventHandlerFuncs σ) : Event → σ → Except Panic σ
  | .add obj, s => h.AddFunc obj s
  | .delete obj, s => h.DeleteFunc obj s
  | .update oldObj newObj, s => h.UpdateFunc oldObj newObj s

/-- The informer hands over events one at a time, in order; a panic ends it. -/
def deliverAll {σ : Type} (h : ResourceEventHandlerFuncs σ) : List Event → σ → Except Panic σ
  | [], s => .ok s
  | e :: es, s =>
    match deliver h e s with
    | .ok s' => deliverAll h es s'
    | .error p => .error p

end cache

/-! ## Watching services -/

/-- The type assertion `obj.(*coreV1.Service)`: it yields the pointer when the
dynamic type is `*coreV1.Service` and panics otherwise. -/
def assertService : cache.Obj → Except Panic (Option Service)
  | .service p => .ok p
  | _ => .error .typeAssertion

/-- A callback `func(*coreV1.Service)`: an effect on the caller's state. -/
abbrev Callback (σ : Type) := Option Service → σ → σ

/-- The `cache.ResourceEventHandlerFuncs` literal of `WatchService`: each closure
tests its callback for nil and, when it is set, calls it on the type-asserted
object; `UpdateFunc` uses `newObj` only. -/
def WatchService.handlers {σ : Type} (fAdd fDel fMod : Option (Callback σ)) :
    cache.ResourceEventHandlerFuncs σ where
  AddFunc := fun obj s =>
    match fAdd with
    | some f =>
      match assertService obj with
      | .ok p => .ok (f p s)
      | .error e => .error e
    | none => .ok s
  DeleteFunc := fun obj s =>
    match fDel with
    | some f =>
      match assertService obj with
      | .ok p => .ok (f p s)
      | .error e => .error e
    | none => .ok s
  UpdateFunc := fun _oldObj newObj s =>
    match fMod with
    | some f =>
      match assertService newObj with
      | .ok p => .ok (f p s)
      | .error e => .error e
    | none => .ok s

/-- What each of the three closures does with its callback and the object it is
given. -/
def callIfSet {σ : Type} (f : Option (Callback σ)) (obj : cache.Obj) (s : σ) : Except Panic σ :=
  match f with
  | some g =>
    match assertService obj with
    | .ok p => .ok (g p s)
    | .error e => .error e
  | none => .ok s

/-- The variable `selector` of `WatchService`. -/
def WatchService.selector (name : String) : fields.Selector :=
  if name ≠ "" then fields.OneTermEqualSelector "metadata.name" name else fields.Nothing

/-- The variable `watchlist` of `WatchService`. -/
def WatchService.watchlist (name ns : String) : cache.ListWatch :=
  cache.NewListWatchFromClient "services" ns (WatchService.selector name)

/-- The control state of a `WatchService` call once the controller is started:
whether the `stop` channel is closed and how many sleeps have completed. -/
structure WatchState where
  stopClosed : Bool
  sleeps : Nat
deriving DecidableEq, Repr

/-- A running subscription: the list-watch, the handlers and the control state. -/
structure Watch (σ : Type) where
  watchlist : cache.ListWatch
  handlers : cache.ResourceEventHandlerFuncs σ
  state : WatchState

/-- The method `WatchService` up to `go controller.Run(stop)`: the `stop` channel is made
open and handed to the controller. -/
def WatchService.start {σ : Type} (name ns : String) (fAdd fDel fMod : Option (Callback σ)) :
    Watch σ :=
  ⟨WatchService.watchlist name ns, WatchService.handlers fAdd fDel fMod, ⟨false, 0⟩⟩

/-- One turn of `for { time.Sleep(1000 * time.Second) }`: the sleep completes and
control is back at the loop head. -/
def WatchState.sleep (s : WatchState) : WatchState := { s with sleeps := s.sleeps + 1 }

/-- The control state after `n` turns of the loop. -/
def waitState : Nat → WatchState → WatchState
  | 0, s => s
  | n + 1, s => waitState n s.sleep

/-- The loop `for { time.Sleep(1000 * time.Second) }` run for at most `fuel`
turns: `some` is the state in which the loop was left, `none` means it is still
running.  The loop has no condition, no `break` and no `return`. -/
def waitLoop : Nat → WatchState → Option WatchState
  | 0, _ => none
  | fuel + 1, s => waitLoop fuel s.sleep

/-- The method `WatchService` run until its loop has made at most `fuel` turns: `some` is the
subscription as the call returned, after the deferred `close(stop)`; `none` means
the call has not returned. -/
def WatchService {σ : Type} (name ns : String) (fAdd fDel fMod : Option (Callback σ))
    (fuel : Nat) : Option (Watch σ) :=
  let w := WatchService.start name ns fAdd fDel fMod
  (waitLoop fuel w.state).map (fun s => { w with state := { s with stopClosed := true } })

/-- The subscription as it stands after `n` turns of the loop. -/
def WatchService.during {σ : Type} (name ns : String) (fAdd fDel fMod : Option (Callback σ))
    (n : Nat) : Watch σ :=
  let w := WatchService.start name ns fAdd fDel fMod
  { w with state := waitState n w.state }

/-- The call `controller.Run(stop)` on a batch of events: they reach the handlers as long
as the `stop` channel is open. -/
def controllerRun {σ : Type} (w : Watch σ) (events : List cache.Event) (s : σ) : Except Panic σ :=
  if w.state.stopClosed then .ok s else cache.deliverAll w.handlers events s

/-- A callback invocation: which callback, and its argument. -/
inductive Invocation where
  | fAdd (p : Option Service)
  | fDel (p : Option Service)
  | fMod (p : Option Service)
deriving DecidableEq, Repr

/-- Callbacks that write down each invocation. -/
def recAdd : Callback (List Invocation) := fun p log => log ++ [.fAdd p]

/-- See `recAdd`. -/
def recDel : Callback (List Invocation) := fun p log => log ++ [.fDel p]

/-- See `recAdd`. -/
def recMod : Callback (List Invocation) := fun p log => log ++ [.fMod p]

/-- The callback invocation an event stands for, when it carries a
`*coreV1.Service`. -/
def expected : cache.Event → Option Invocation
  | .add (.service p) => some (.fAdd p)
  | .delete (.service p) => some (.fDel p)
  | .update _ (.service p) => some (.fMod p)
  | _ => none

/-- The object a handler passes to its callback: the new object for an update. -/
def cache.Event.payload : cache.Event → cache.Obj
  | .add obj => obj
  | .delete obj => obj
  | .update _ newObj => newObj

/-- Whether the dynamic type of a value is `*coreV1.Service`. -/
def cache.Obj.isService : cache.Obj → Bool
  | .service _ => true
  | _ => false

/-- The callback an event of each kind is meant for. -/
def callbackFor {σ : Type} (fAdd fDel fMod : Option (Callback σ)) :
    cache.Event → Option (Callback σ)
  | .add _ => fAdd
  | .delete _ => fDel
  | .update _ _ => fMod

/-- The effect on the caller's state of the callback an event stands for, when
the event carries a `*coreV1.Service`: `fAdd` for an add, `fDel` for a delete,
`fMod` on the new object for an update. -/
def applyCallback {σ : Type} (fAdd fDel fMod : Callback σ) : cache.Event → σ → σ
  | .add (.service p), s => fAdd p s
  | .delete (.service p), s => fDel p s
  | .update _ (.service p), s => fMod p s
  | _, s => s

/-! ## Reading a trace -/

/-- A read of the cluster: `Get` or `List`. -/
def Effect.isRead : Effect → Bool
  | .get _ _ => true
  | .list _ _ => true
  | _ => false

/-- A call to the cluster through the client. -/
def Effect.isRemote : Effect → Bool
  | .get _ _ => true
  | .list _ _ => true
  | .create _ _ => true
  | .patch _ _ _ _ => true
  | _ => false

/-- A `Create` call. -/
def Effect.isCreate : Effect → Bool
  | .create _ _ => true
  | _ => false

/-- A `Patch` call. -/
def Effect.isPatch : Effect → Bool
  | .patch _ _ _ _ => true
  | _ => false

/-- A `SetupHeartBeat` call. -/
def Effect.isSetupHeartBeat : Effect → Bool
  | .setupHeartBeat _ _ _ => true
  | _ => false

/-- The payload of a `Patch` call. -/
def Effect.patchPayload : Effect → Option String
  | .patch _ _ _ data => some data
  | _ => none

/-- The error a log line carries. -/
def Effect.loggedError : Effect → Option ApiError
  | .log _ _ err => err
  | _ => none

/-- The calls a run added to the trace it started from (none if it panicked). -/
def newEffects {σ : Type} (w : World σ) : Except Panic (World σ) → List Effect
  | .ok w' => w'.trace.drop w.trace.length
  | .error _ => []

/-! ## A small concrete cluster -/

/-- An in-memory cluster: the state is the list of stored services; `Create`
refuses a name already present in the namespace, `Patch` refuses an absent one. -/
def memClientset : Clientset (List Service) where
  List := fun store ns _ => (store.filter (fun s => ns == "" || s.Namespace == ns), none)
  Create := fun store ns svc =>
    if store.any (fun s => s.Name == svc.Name && s.Namespace == ns) then
      ((none, some ⟨"already exists"⟩), store)
    else ((some svc, none), store ++ [svc])
  Patch := fun store ns name _ _ =>
    match store.find? (fun s => s.Name == name && s.Namespace == ns) with
    | some s => ((some s, none), store)
    | none => ((none, some ⟨"not found"⟩), store)

/-- The receiver over the in-memory cluster. -/
def memK : Kubernetes (List Service) := ⟨memClientset⟩

/-- Sample helpers: every required label pair occurs in the full map; the service
built takes name, namespace and selectors from the argument. -/
def sampleHelpers : Helpers where
  MapContains := fun fullMap subMap => subMap.all (fun kv => fullMap.contains kv)
  createService := fun m =>
    match m.Meta with
    | some r => ⟨r.Name, r.Namespace, ⟨m.Selectors⟩⟩
    | none => ⟨"", "", ⟨m.Selectors⟩⟩
  formattedTime := fun t => toString t
  resourceHeartbeatPatch := fun t => "heartbeat " ++ toString t

/-- A service `web` in namespace `default`. -/
def webSvc : Service := ⟨"web", "default", ⟨[("app", "web")]⟩⟩

/-- A request to create `web` in `default`. -/
def webSpec : SvcMetaAndSpec := ⟨some ⟨"web", "default"⟩, false, [(80, 8080)], [("app", "web")]⟩

/-- A world whose cluster already holds `web`. -/
def worldWithWeb : World (List Service) := ⟨[webSvc], 7, []⟩

/-- A world with an empty cluster. -/
def emptyWorld : World (List Service) := ⟨[], 7, []⟩

end KtConnect

namespace KtConnect

/-! ## Theorems -/

theorem matchLoop_foldl (p : Service → Bool) (items acc : List Service) :
    items.foldl (fun matchedSvcs svc => if p svc then matchedSvcs ++ [svc] else matchedSvcs) acc
      = acc ++ items.filter p := by
  induction items generalizing acc with
  | nil => simp
  | cons svc rest ih =>
    simp only [List.foldl_cons, List.filter_cons]
    by_cases hp : p svc = true
    · simp [hp, ih]
    · simp [hp, ih]

theorem matchLoop_eq_filter (h : Helpers) (matchLabels : StringMap) (items : List Service) :
    matchLoop h matchLabels items
      = items.filter (fun svc => h.MapContains svc.Spec.Selector matchLabels) := by
  unfold matchLoop
  rw [matchLoop_foldl (fun svc => h.MapContains svc.Spec.Selector matchLabels)]
  simp

/-- C5: `GetServicesBySelector` agrees with the reference definition on every
input: it lists the namespace once (empty options, cluster state untouched); a
listing error `e` gives `(nil, e)` whatever list came back with it, and otherwise
the result is the listed services satisfying
`MapContains(svc.Spec.Selector, matchLabels)`, in listing order and with
multiplicity, with a nil error. -/
theorem GetServicesBySelector_eq_ref {σ : Type} (h : Helpers) (k : Kubernetes σ)
    (matchLabels : StringMap) (ns : String) (w : World σ) :
    (GetServicesBySelector h k matchLabels ns w).1
        = GetServicesBySelector_ref h.MapContains
            (k.Clientset.List w.store ns ListOptions.empty) matchLabels
      ∧ (GetServicesBySelector h k matchLabels ns w).2
        = { w with trace := w.trace ++ [Effect.list ns ListOptions.empty] } := by
  unfold GetServicesBySelector GetServicesBySelector_ref GetAllServiceInNamespace World.emit
  cases hE : (k.Clientset.List w.store ns ListOptions.empty).2 with
  | some e => simp [hE]
  | none => simp [hE, matchLoop_eq_filter]

/-- A run of `GetServicesBySelector` on the sample cluster: `web` carries the
required label, `db` does not. -/
theorem GetServicesBySelector_sample :
    (GetServicesBySelector sampleHelpers memK [("app", "web")] "default"
        ⟨[webSvc, ⟨"db", "default", ⟨[("app", "db")]⟩⟩, webSvc], 7, []⟩).1
      = ([webSvc, webSvc], none) := by
  decide

/-! ### CreateService -/

/-- C1 (as stated, refuted): creating `web` in a cluster that already holds it
fails with "already exists", and yet `SetupHeartBeat("web", "default", ...)` has
been called. -/
theorem CreateService_heartbeat_despite_failed_create :
    ∃ r w', CreateService sampleHelpers memK webSpec worldWithWeb = .ok (r, w')
      ∧ r = (none, some ⟨"already exists"⟩)
      ∧ Effect.setupHeartBeat "web" "default" .UpdateServiceHeartBeat ∈ w'.trace :=
  ⟨_, _, rfl, by decide, by decide⟩

/-- C1 (amended): for every SvcMetaAndSpec with a Meta, `CreateService` calls
`SetupHeartBeat(Meta.Name, Meta.Namespace, k.UpdateServiceHeartBeat)` exactly
once, before the `Create` call and whatever that call returns: the calls it makes
are the heartbeat setup followed by the `Create`, for a failing `Create` as for a
successful one. -/
theorem CreateService_heartbeat_before_create {σ : Type} (h : Helpers) (k : Kubernetes σ)
    (m : ResourceMeta) (external : Bool) (ports : List (Int × Int)) (selectors : StringMap)
    (w : World σ) :
    ∃ r w', CreateService h k ⟨some m, external, ports, selectors⟩ w = .ok (r, w')
      ∧ w'.trace = w.trace ++
          [Effect.setupHeartBeat m.Name m.Namespace .UpdateServiceHeartBeat,
           Effect.create m.Namespace (h.createService ⟨some m, external, ports, selectors⟩)]
      ∧ ((w'.trace.drop w.trace.length).filter Effect.isSetupHeartBeat).length = 1 := by
  refine ⟨_, _, rfl, ?_, ?_⟩
  · simp [World.emit]
  · simp [World.emit, Effect.isSetupHeartBeat, Effect.isCreate, List.filter_cons]

/-- C9 (amended): for every SvcMetaAndSpec with a non-nil Meta, `CreateService`
makes exactly one `Create` call, in namespace `Meta.Namespace` with the service
built by `createService`, and returns the `(service, error)` pair of that call
unchanged; the cluster is left as that one call left it. -/
theorem CreateService_returns_create_pair {σ : Type} (h : Helpers) (k : Kubernetes σ)
    (m : ResourceMeta) (external : Bool) (ports : List (Int × Int)) (selectors : StringMap)
    (w : World σ) :
    ∃ w', CreateService h k ⟨some m, external, ports, selectors⟩ w
          = .ok ((k.Clientset.Create w.store m.Namespace
                    (h.createService ⟨some m, external, ports, selectors⟩)).1, w')
      ∧ w'.store = (k.Clientset.Create w.store m.Namespace
                    (h.createService ⟨some m, external, ports, selectors⟩)).2
      ∧ (w'.trace.drop w.trace.length).filter Effect.isRemote
          = [Effect.create m.Namespace (h.createService ⟨some m, external, ports, selectors⟩)] := by
  refine ⟨_, rfl, rfl, ?_⟩
  simp [World.emit, Effect.isRemote, List.filter_cons]

/-- C9 (as stated, refuted): given a SvcMetaAndSpec whose `Meta` is nil,
`CreateService` panics on the dereference of `Meta`; it makes no `Create` call
and returns no pair. -/
theorem CreateService_nil_meta_makes_no_create :
    CreateService sampleHelpers memK ⟨none, false, [(80, 8080)], [("app", "web")]⟩ emptyWorld
        = .error .nilPointerDereference
      ∧ ¬ ∃ r w', CreateService sampleHelpers memK
            ⟨none, false, [(80, 8080)], [("app", "web")]⟩ emptyWorld = .ok (r, w') := by
  refine ⟨rfl, ?_⟩
  rintro ⟨r, w', hrun⟩
  cases hrun

/-- With a nil `Meta` the call panics on the dereference, before any call is made. -/
theorem CreateService_nil_meta {σ : Type} (h : Helpers) (k : Kubernetes σ)
    (external : Bool) (ports : List (Int × Int)) (selectors : StringMap) (w : World σ) :
    CreateService h k ⟨none, external, ports, selectors⟩ w = .error .nilPointerDereference :=
  rfl

/-! ### UpdateServiceHeartBeat -/

theorem UpdateServiceHeartBeat_run {σ : Type} (h : Helpers) (k : Kubernetes σ)
    (name ns : String) (w : World σ) :
    UpdateServiceHeartBeat h k name ns w
      = .ok ⟨(k.Clientset.Patch w.store ns name .JSONPatchType (h.resourceHeartbeatPatch w.now)).2,
          w.now,
          w.trace ++
            ([Effect.log .debug
                ("Heartbeat service " ++ name ++ " ticked at " ++ h.formattedTime w.now) none,
              Effect.patch ns name .JSONPatchType (h.resourceHeartbeatPatch w.now)] ++
             match (k.Clientset.Patch w.store ns name .JSONPatchType
                      (h.resourceHeartbeatPatch w.now)).1.2 with
             | some err => [Effect.log .warn "Failed to update service heart beat" (some err)]
             | none => [])⟩ := by
  unfold UpdateServiceHeartBeat
  cases hE : (k.Clientset.Patch w.store ns name .JSONPatchType
      (h.resourceHeartbeatPatch w.now)).1.2 with
  | some e => simp [World.emit, hE]
  | none => simp [World.emit, hE]

theorem newEffects_UpdateServiceHeartBeat {σ : Type} (h : Helpers) (k : Kubernetes σ)
    (name ns : String) (w : World σ) :
    newEffects w (UpdateServiceHeartBeat h k name ns w)
      = [Effect.log .debug
            ("Heartbeat service " ++ name ++ " ticked at " ++ h.formattedTime w.now) none,
          Effect.patch ns name .JSONPatchType (h.resourceHeartbeatPatch w.now)] ++
         match (k.Clientset.Patch w.store ns name .JSONPatchType
                  (h.resourceHeartbeatPatch w.now)).1.2 with
         | some err => [Effect.log .warn "Failed to update service heart beat" (some err)]
         | none => [] := by
  rw [UpdateServiceHeartBeat_run]
  simp [newEffects]

/-- A tick for a service the cluster does not hold: the patch fails with "not
found", the tick logs the warning and returns. -/
theorem UpdateServiceHeartBeat_sample_failed_patch :
    ∃ w', UpdateServiceHeartBeat sampleHelpers memK "web" "default" emptyWorld = .ok w'
      ∧ w'.trace
        = [Effect.log .debug "Heartbeat service web ticked at 7" none,
           Effect.patch "default" "web" .JSONPatchType "heartbeat 7",
           Effect.log .warn "Failed to update service heart beat" (some ⟨"not found"⟩)] :=
  ⟨_, rfl, by decide⟩

/-- C6: for every name and namespace, and whatever the cluster answers, one
heartbeat tick returns normally (no panic; the function has no error result),
makes exactly one `Patch` attempt, and the error of a failed patch ends up in
the log and nowhere else: the errors logged by the tick are exactly the error of
that patch, if any. -/
theorem UpdateServiceHeartBeat_one_patch_error_logged {σ : Type} (h : Helpers)
    (k : Kubernetes σ) (name ns : String) (w : World σ) :
    ∃ w', UpdateServiceHeartBeat h k name ns w = .ok w'
      ∧ (newEffects w (UpdateServiceHeartBeat h k name ns w)).filter Effect.isPatch
          = [Effect.patch ns name .JSONPatchType (h.resourceHeartbeatPatch w.now)]
      ∧ (newEffects w (UpdateServiceHeartBeat h k name ns w)).filterMap Effect.loggedError
          = (k.Clientset.Patch w.store ns name .JSONPatchType
              (h.resourceHeartbeatPatch w.now)).1.2.toList
      ∧ w'.store = (k.Clientset.Patch w.store ns name .JSONPatchType
              (h.resourceHeartbeatPatch w.now)).2 := by
  refine ⟨_, UpdateServiceHeartBeat_run h k name ns w, ?_, ?_, rfl⟩
  · rw [newEffects_UpdateServiceHeartBeat]
    cases (k.Clientset.Patch w.store ns name .JSONPatchType
      (h.resourceHeartbeatPatch w.now)).1.2 <;> simp [Effect.isPatch, List.filter_cons]
  · rw [newEffects_UpdateServiceHeartBeat]
    cases (k.Clientset.Patch w.store ns name .JSONPatchType
      (h.resourceHeartbeatPatch w.now)).1.2 <;> simp [Effect.loggedError, List.filterMap_cons]

/-- C7: for every name and namespace, one heartbeat tick reads nothing from the
cluster (no `Get`, no `List`); its only call to the cluster is one `Patch` of type
`JSONPatchType` addressed to that name in that namespace; and the payload sent is
the same for any two cluster states (and cluster behaviours) under the same
clock reading. -/
theorem UpdateServiceHeartBeat_blind_patch {σ : Type} (h : Helpers) (k k2 : Kubernetes σ)
    (name ns : String) (store store2 : σ) (now : Time) (trace trace2 : List Effect) :
    (newEffects ⟨store, now, trace⟩
        (UpdateServiceHeartBeat h k name ns ⟨store, now, trace⟩)).filter Effect.isRead = []
      ∧ (newEffects ⟨store, now, trace⟩
        (UpdateServiceHeartBeat h k name ns ⟨store, now, trace⟩)).filter Effect.isRemote
          = [Effect.patch ns name .JSONPatchType (h.resourceHeartbeatPatch now)]
      ∧ (newEffects ⟨store, now, trace⟩
          (UpdateServiceHeartBeat h k name ns ⟨store, now, trace⟩)).filterMap Effect.patchPayload
        = (newEffects ⟨store2, now, trace2⟩
          (UpdateServiceHeartBeat h k2 name ns ⟨store2, now, trace2⟩)).filterMap
            Effect.patchPayload := by
  simp only [newEffects_UpdateServiceHeartBeat]
  refine ⟨?_, ?_, ?_⟩
  · cases (k.Clientset.Patch store ns name .JSONPatchType (h.resourceHeartbeatPatch now)).1.2 <;>
      simp [Effect.isRead, List.filter_cons]
  · cases (k.Clientset.Patch store ns name .JSONPatchType (h.resourceHeartbeatPatch now)).1.2 <;>
      simp [Effect.isRemote, List.filter_cons]
  · cases (k.Clientset.Patch store ns name .JSONPatchType (h.resourceHeartbeatPatch now)).1.2 <;>
      cases (k2.Clientset.Patch store2 ns name .JSONPatchType (h.resourceHeartbeatPatch now)).1.2 <;>
      simp [Effect.patchPayload, List.filterMap_cons]

/-- Every tick of a run of the timer makes its patch attempt, whatever the
earlier patches returned: after the ticks the trace holds one more `Patch` call
per tick. -/
theorem heartBeatTicks_all_attempted {σ : Type} (h : Helpers) (k : Kubernetes σ)
    (name ns : String) (ticks : List Time) (w : World σ) :
    ∃ w', heartBeatTicks h k name ns ticks w = .ok w'
      ∧ (w'.trace.filter Effect.isPatch).length
          = (w.trace.filter Effect.isPatch).length + ticks.length := by
  induction ticks generalizing w with
  | nil => exact ⟨w, rfl, rfl⟩
  | cons t ts ih =>
    simp only [heartBeatTicks, UpdateServiceHeartBeat_run]
    obtain ⟨w', hrun, hlen⟩ := ih
      ⟨(k.Clientset.Patch w.store ns name .JSONPatchType (h.resourceHeartbeatPatch t)).2, t,
        w.trace ++
          ([Effect.log .debug
              ("Heartbeat service " ++ name ++ " ticked at " ++ h.formattedTime t) none,
            Effect.patch ns name .JSONPatchType (h.resourceHeartbeatPatch t)] ++
           match (k.Clientset.Patch w.store ns name .JSONPatchType
                    (h.resourceHeartbeatPatch t)).1.2 with
           | some err => [Effect.log .warn "Failed to update service heart beat" (some err)]
           | none => [])⟩
    refine ⟨w', hrun, ?_⟩
    rw [hlen]
    cases (k.Clientset.Patch w.store ns name .JSONPatchType (h.resourceHeartbeatPatch t)).1.2 <;>
      simp [Effect.isPatch, List.filter_cons] <;> omega

/-! ### WatchService: dispatching events -/

theorem callIfSet_service {σ : Type} (g : Callback σ) (p : Option Service) (s : σ) :
    callIfSet (some g) (.service p) s = .ok (g p s) := rfl

theorem callIfSet_none {σ : Type} (obj : cache.Obj) (s : σ) :
    callIfSet (none : Option (Callback σ)) obj s = .ok s := rfl

theorem callIfSet_not_service {σ : Type} (g : Callback σ) (obj : cache.Obj) (s : σ)
    (hobj : obj.isService = false) : callIfSet (some g) obj s = .error .typeAssertion := by
  cases obj <;> first | rfl | simp [cache.Obj.isService] at hobj

theorem deliver_service_event {σ : Type} (fAdd fDel fMod : Callback σ) (e : cache.Event)
    (he : e.payload.isService = true) (s : σ) :
    cache.deliver (WatchService.handlers (some fAdd) (some fDel) (some fMod)) e s
      = .ok (applyCallback fAdd fDel fMod e s) := by
  cases e with
  | add obj => cases obj <;> first | rfl | simp [cache.Event.payload, cache.Obj.isService] at he
  | delete obj => cases obj <;> first | rfl | simp [cache.Event.payload, cache.Obj.isService] at he
  | update oldObj obj =>
    cases obj <;> first | rfl | simp [cache.Event.payload, cache.Obj.isService] at he

theorem deliverAll_service_events {σ : Type} (fAdd fDel fMod : Callback σ)
    (es : List cache.Event) (hes : ∀ e ∈ es, e.payload.isService = true) (s : σ) :
    cache.deliverAll (WatchService.handlers (some fAdd) (some fDel) (some fMod)) es s
      = .ok (es.foldl (fun st e => applyCallback fAdd fDel fMod e st) s) := by
  induction es generalizing s with
  | nil => rfl
  | cons e rest ih =>
    have he : e.payload.isService = true := hes e (List.mem_cons_self _ _)
    have hrest : ∀ e' ∈ rest, e'.payload.isService = true :=
      fun e' h' => hes e' (List.mem_cons_of_mem _ h')
    simp only [cache.deliverAll, deliver_service_event fAdd fDel fMod e he, List.foldl_cons]
    exact ih hrest _

theorem expected_of_service (e : cache.Event) (he : e.payload.isService = true) :
    ∃ i, expected e = some i ∧ applyCallback recAdd recDel recMod e = fun log => log ++ [i] := by
  cases e with
  | add obj =>
    cases obj <;> first
      | exact ⟨_, rfl, rfl⟩
      | simp [cache.Event.payload, cache.Obj.isService] at he
  | delete obj =>
    cases obj <;> first
      | exact ⟨_, rfl, rfl⟩
      | simp [cache.Event.payload, cache.Obj.isService] at he
  | update oldObj obj =>
    cases obj <;> first
      | exact ⟨_, rfl, rfl⟩
      | simp [cache.Event.payload, cache.Obj.isService] at he

theorem recorded_service_events (es : List cache.Event)
    (hes : ∀ e ∈ es, e.payload.isService = true) (log : List Invocation) :
    es.foldl (fun st e => applyCallback recAdd recDel recMod e st) log
        = log ++ es.filterMap expected
      ∧ (es.filterMap expected).length = es.length := by
  induction es generalizing log with
  | nil => simp
  | cons e rest ih =>
    have hrest : ∀ e' ∈ rest, e'.payload.isService = true :=
      fun e' h' => hes e' (List.mem_cons_of_mem _ h')
    obtain ⟨i, hi, happ⟩ := expected_of_service e (hes e (List.mem_cons_self _ _))
    obtain ⟨ih1, ih2⟩ := ih hrest (log ++ [i])
    constructor
    · simp only [List.foldl_cons, happ, List.filterMap_cons, hi]
      rw [ih1]
      simp
    · simp [List.filterMap_cons, hi, ih2]

/-- C3 (code bug): the claim asks that every event delivered by the informer, with
all three callbacks set, invokes exactly one callback once, `fDel` for a delete.
The informer delivers a delete event carrying a `cache.DeletedFinalStateUnknown`
tombstone; the unchecked type assertion of `DeleteFunc` panics and `fDel` is not
invoked. -/
theorem WatchService_tombstone_delete_panics :
    cache.deliver (WatchService.handlers (some recAdd) (some recDel) (some recMod))
        (.delete (.deletedFinalStateUnknown "default/web" (some webSvc))) []
      = .error .typeAssertion := rfl

/-- Where the handlers do dispatch as intended: with all three callbacks non-nil,
for every sequence of events whose delivered object (the new object, for an
update) is a `*coreV1.Service`, every event invokes exactly one callback exactly
once (`fAdd` with the added
service, `fDel` with the deleted service, `fMod` with the new object and never
the old one), and the callbacks are invoked in the order of the events: the
caller's state is the result of applying the callbacks in event order, and
recording callbacks hold one entry per event, in event order. -/
theorem WatchService_dispatch_service_events {σ : Type} (fAdd fDel fMod : Callback σ)
    (es : List cache.Event) (hes : ∀ e ∈ es, e.payload.isService = true) (s : σ)
    (log : List Invocation) :
    cache.deliverAll (WatchService.handlers (some fAdd) (some fDel) (some fMod)) es s
        = .ok (es.foldl (fun st e => applyCallback fAdd fDel fMod e st) s)
      ∧ cache.deliverAll (WatchService.handlers (some recAdd) (some recDel) (some recMod)) es log
        = .ok (log ++ es.filterMap expected)
      ∧ (es.filterMap expected).length = es.length := by
  refine ⟨deliverAll_service_events fAdd fDel fMod es hes s, ?_,
    (recorded_service_events es hes log).2⟩
  rw [deliverAll_service_events recAdd recDel recMod es hes log,
    (recorded_service_events es hes log).1]

/-- A concrete run on service objects: add `web`, update it, delete it. -/
theorem WatchService_dispatch_sample_run :
    (∀ e ∈ [cache.Event.add (.service (some webSvc)),
            cache.Event.update (.other "string") (.service (some webSvc)),
            cache.Event.delete (.service (some webSvc))], e.payload.isService = true)
      ∧ cache.deliverAll (WatchService.handlers (some recAdd) (some recDel) (some recMod))
          [cache.Event.add (.service (some webSvc)),
           cache.Event.update (.other "string") (.service (some webSvc)),
           cache.Event.delete (.service (some webSvc))] []
        = .ok [Invocation.fAdd (some webSvc), Invocation.fMod (some webSvc),
               Invocation.fDel (some webSvc)] :=
  ⟨by decide,
   (WatchService_dispatch_service_events recAdd recDel recMod
      [cache.Event.add (.service (some webSvc)),
       cache.Event.update (.other "string") (.service (some webSvc)),
       cache.Event.delete (.service (some webSvc))] (by decide) [] []).2.1⟩

/-- C4: for each event kind whose callback is nil, an event of that kind carrying
any object at all leaves the caller's state as it was and raises nothing (no
callback runs, no panic); and what an event of one kind does depends only on the
callback of that kind, so the callbacks of the other kinds are unaffected by a
nil one. -/
theorem WatchService_nil_callback_no_op {σ : Type} (fAdd fDel fMod other : Option (Callback σ))
    (obj oldObj : cache.Obj) (s : σ) :
    cache.deliver (WatchService.handlers none fDel fMod) (.add obj) s = .ok s
      ∧ cache.deliver (WatchService.handlers fAdd none fMod) (.delete obj) s = .ok s
      ∧ cache.deliver (WatchService.handlers fAdd fDel none) (.update oldObj obj) s = .ok s
      ∧ cache.deliver (WatchService.handlers none fDel fMod) (.delete obj) s
          = cache.deliver (WatchService.handlers other fDel fMod) (.delete obj) s
      ∧ cache.deliver (WatchService.handlers none fDel fMod) (.update oldObj obj) s
          = cache.deliver (WatchService.handlers other fDel fMod) (.update oldObj obj) s
      ∧ cache.deliver (WatchService.handlers fAdd none fMod) (.add obj) s
          = cache.deliver (WatchService.handlers fAdd other fMod) (.add obj) s
      ∧ cache.deliver (WatchService.handlers fAdd none fMod) (.update oldObj obj) s
          = cache.deliver (WatchService.handlers fAdd other fMod) (.update oldObj obj) s
      ∧ cache.deliver (WatchService.handlers fAdd fDel none) (.add obj) s
          = cache.deliver (WatchService.handlers fAdd fDel other) (.add obj) s
      ∧ cache.deliver (WatchService.handlers fAdd fDel none) (.delete obj) s
          = cache.deliver (WatchService.handlers fAdd fDel other) (.delete obj) s :=
  ⟨rfl, rfl, rfl, rfl, rfl, rfl, rfl, rfl, rfl⟩

theorem deliver_eq_callIfSet {σ : Type} (fAdd fDel fMod : Option (Callback σ))
    (e : cache.Event) (s : σ) :
    cache.deliver (WatchService.handlers fAdd fDel fMod) e s
      = callIfSet (callbackFor fAdd fDel fMod e) e.payload s := by
  cases e <;> rfl

/-- C10: dispatching an event fails, with the panic of the type assertion, if and
only if the callback for the kind of the event is non-nil and the delivered
object (the new object, for an update) is not a `*coreV1.Service`, as for a
deletion tombstone handed to the delete handler; in every other case dispatch
completes; and the outcome of an update does not depend on the old object. -/
theorem WatchService_dispatch_fails_iff {σ : Type} (fAdd fDel fMod : Option (Callback σ))
    (e : cache.Event) (s : σ) (oldObj oldObj2 newObj : cache.Obj) :
    (cache.deliver (WatchService.handlers fAdd fDel fMod) e s = .error .typeAssertion
        ↔ ((callbackFor fAdd fDel fMod e).isSome = true ∧ e.payload.isService = false))
      ∧ ((∃ s', cache.deliver (WatchService.handlers fAdd fDel fMod) e s = .ok s')
        ↔ ¬ ((callbackFor fAdd fDel fMod e).isSome = true ∧ e.payload.isService = false))
      ∧ cache.deliver (WatchService.handlers fAdd (some (fun _ st => st)) fMod)
          (.delete (.deletedFinalStateUnknown "default/web" none)) s = .error .typeAssertion
      ∧ cache.deliver (WatchService.handlers fAdd fDel fMod) (.update oldObj newObj) s
        = cache.deliver (WatchService.handlers fAdd fDel fMod) (.update oldObj2 newObj) s := by
  refine ⟨?_, ?_, rfl, rfl⟩
  · rw [deliver_eq_callIfSet]
    cases hcb : callbackFor fAdd fDel fMod e with
    | none => simp [callIfSet_none]
    | some g =>
      cases hp : e.payload with
      | service p => simp [callIfSet_service, cache.Obj.isService]
      | deletedFinalStateUnknown key last => simp [callIfSet, assertService, cache.Obj.isService]
      | nil => simp [callIfSet, assertService, cache.Obj.isService]
      | other t => simp [callIfSet, assertService, cache.Obj.isService]
  · rw [deliver_eq_callIfSet]
    cases hcb : callbackFor fAdd fDel fMod e with
    | none => simp [callIfSet_none]
    | some g =>
      cases hp : e.payload with
      | service p => simp [callIfSet_service, cache.Obj.isService]
      | deletedFinalStateUnknown key last => simp [callIfSet, assertService, cache.Obj.isService]
      | nil => simp [callIfSet, assertService, cache.Obj.isService]
      | other t => simp [callIfSet, assertService, cache.Obj.isService]

/-! ### WatchService: the wait loop -/

theorem waitLoop_none (fuel : Nat) (s : WatchState) : waitLoop fuel s = none := by
  induction fuel generalizing s with
  | zero => rfl
  | succ n ih => simp only [waitLoop, ih]

theorem waitState_stopClosed (n : Nat) (s : WatchState) :
    (waitState n s).stopClosed = s.stopClosed := by
  induction n generalizing s with
  | zero => rfl
  | succ n ih => simp only [waitState, ih, WatchState.sleep]

/-- C8 (as stated, refuted): a `WatchService` call never returns, however long its
loop runs, so there is nothing on which the loop exits and the deferred
`close(stop)` never executes. -/
theorem WatchService_never_returns :
    ¬ ∃ fuel : Nat,
      (WatchService "web" "default" (some recAdd) (some recDel) (some recMod) fuel).isSome
        = true := by
  rintro ⟨fuel, hf⟩
  simp [WatchService, waitLoop_none] at hf

/-- C8 (amended): a running `WatchService` subscription is never stopped: for
every name, namespace and callbacks and after any number of turns of the wait
loop, the call has not returned, the `stop` channel handed to the controller is
still open, and the controller goes on handing every event to the handlers. -/
theorem WatchService_runs_forever {σ : Type} (name ns : String)
    (fAdd fDel fMod : Option (Callback σ)) (n : Nat) (events : List cache.Event) (s : σ) :
    WatchService name ns fAdd fDel fMod n = none
      ∧ (WatchService.during name ns fAdd fDel fMod n).state.stopClosed = false
      ∧ controllerRun (WatchService.during name ns fAdd fDel fMod n) events s
        = cache.deliverAll (WatchService.handlers fAdd fDel fMod) events s := by
  have hopen : (WatchService.during name ns fAdd fDel fMod n).state.stopClosed = false := by
    simp [WatchService.during, WatchService.start, waitState_stopClosed]
  refine ⟨?_, hopen, ?_⟩
  · simp [WatchService, waitLoop_none]
  · unfold controllerRun
    rw [hopen]
    rfl

/-! ### WatchService: the subscription filter -/

namespace fields

theorem escapeChars_special (c : Char) (cs : List Char) (hc : c = '\\' ∨ c = ',' ∨ c = '=') :
    escapeChars (c :: cs) = '\\' :: c :: escapeChars cs := by
  rw [escapeChars, if_pos hc]

theorem escapeChars_plain (c : Char) (cs : List Char) (hc : ¬ (c = '\\' ∨ c = ',' ∨ c = '=')) :
    escapeChars (c :: cs) = c :: escapeChars cs := by
  rw [escapeChars, if_neg hc]

theorem splitTermsAux_step (c : Char) (cur cs : List Char) (h1 : c ≠ '\\') (h2 : c ≠ ',') :
    splitTermsAux false cur (c :: cs) = splitTermsAux false (cur ++ [c]) cs := by
  rw [splitTermsAux, if_neg h1, if_neg h2]

theorem splitTermsAux_escaped (c : Char) (cur cs : List Char) :
    splitTermsAux false cur ('\\' :: c :: cs) = splitTermsAux false (cur ++ ['\\'] ++ [c]) cs := by
  rw [splitTermsAux, if_pos rfl, splitTermsAux]

theorem splitTermsAux_plain (pre cur rest : List Char)
    (hpre : ∀ c ∈ pre, c ≠ '\\' ∧ c ≠ ',') :
    splitTermsAux false cur (pre ++ rest) = splitTermsAux false (cur ++ pre) rest := by
  induction pre generalizing cur with
  | nil => simp
  | cons c cs ih =>
    have hc := hpre c (List.mem_cons_self _ _)
    have hcs : ∀ d ∈ cs, d ≠ '\\' ∧ d ≠ ',' := fun d hd => hpre d (List.mem_cons_of_mem _ hd)
    rw [List.cons_append, splitTermsAux_step c cur _ hc.1 hc.2, ih _ hcs]
    simp

theorem splitTermsAux_escapeChars (v cur : List Char) :
    splitTermsAux false cur (escapeChars v) = [cur ++ escapeChars v] := by
  induction v generalizing cur with
  | nil => simp [escapeChars, splitTermsAux]
  | cons c cs ih =>
    by_cases hc : c = '\\' ∨ c = ',' ∨ c = '='
    · rw [escapeChars_special c cs hc, splitTermsAux_escaped, ih]
      simp
    · have h1 : c ≠ '\\' := fun h => hc (Or.inl h)
      have h2 : c ≠ ',' := fun h => hc (Or.inr (Or.inl h))
      rw [escapeChars_plain c cs hc, splitTermsAux_step c cur _ h1 h2, ih]
      simp

theorem unescapeChars_escapeChars (v : List Char) :
    unescapeChars false (escapeChars v) = some v := by
  induction v with
  | nil => simp [escapeChars, unescapeChars]
  | cons c cs ih =>
    by_cases hc : c = '\\' ∨ c = ',' ∨ c = '='
    · rw [escapeChars_special c cs hc, unescapeChars, if_pos rfl, unescapeChars, if_pos hc, ih]
      rfl
    · have h1 : c ≠ '\\' := fun h => hc (Or.inl h)
      have h23 : ¬ (c = ',' ∨ c = '=') := fun h => hc (Or.inr h)
      rw [escapeChars_plain c cs hc, unescapeChars, if_neg h1, if_neg h23, ih]
      rfl

theorem escapeChars_head (v : List Char) : (escapeChars v).head? ≠ some '=' := by
  cases v with
  | nil => simp [escapeChars]
  | cons c cs =>
    by_cases hc : c = '\\' ∨ c = ',' ∨ c = '='
    · rw [escapeChars_special c cs hc]
      simp
    · have h3 : c ≠ '=' := fun h => hc (Or.inr (Or.inr h))
      rw [escapeChars_plain c cs hc]
      simpa using h3

theorem splitTerm_step (c : Char) (lhs cs : List Char) (h1 : c ≠ '!') (h2 : c ≠ '=') :
    splitTerm lhs (c :: cs) = splitTerm (lhs ++ [c]) cs := by
  have hfind : termOperators.find? (fun op => op.1.isPrefixOf (c :: cs)) = none := by
    simp [termOperators, List.find?_cons, List.isPrefixOf, Ne.symm h1, Ne.symm h2]
  rw [splitTerm, hfind]

theorem splitTerm_plain (pre lhs rest : List Char) (hpre : ∀ c ∈ pre, c ≠ '!' ∧ c ≠ '=') :
    splitTerm lhs (pre ++ rest) = splitTerm (lhs ++ pre) rest := by
  induction pre generalizing lhs with
  | nil => simp
  | cons c cs ih =>
    have hc := hpre c (List.mem_cons_self _ _)
    have hcs : ∀ d ∈ cs, d ≠ '!' ∧ d ≠ '=' := fun d hd => hpre d (List.mem_cons_of_mem _ hd)
    rw [List.cons_append, splitTerm_step c lhs _ hc.1 hc.2, ih _ hcs]
    simp

theorem splitTerm_equal (lhs rest : List Char) (hrest : rest.head? ≠ some '=') :
    splitTerm lhs ('=' :: rest) = some (lhs, .equal, rest) := by
  have hfind : termOperators.find? (fun op => op.1.isPrefixOf ('=' :: rest))
      = some (['='], .equal) := by
    cases rest with
    | nil => rfl
    | cons d ds =>
      have hd : d ≠ '=' := fun h => hrest (by simp [h])
      have hd' : ('=' == d) = false := by simpa using Ne.symm hd
      simp [termOperators, List.find?_cons, List.isPrefixOf, hd']
  rw [splitTerm, hfind]
  rfl

/-- The string of a one-term selector parses back to that one term, whatever the
value. -/
theorem ParseSelector_hasTerm (field value : String)
    (hfield : ∀ c ∈ field.data, c ≠ '\\' ∧ c ≠ ',' ∧ c ≠ '!' ∧ c ≠ '=') :
    ParseSelector (Selector.hasTerm field value).toString = some [⟨field, .equal, value⟩] := by
  have hdata : (Selector.hasTerm field value).toString.data
      = field.data ++ ('=' :: escapeChars value.data) := by
    simp [Selector.toString, EscapeValue, String.data_append]
  have hsplit : splitTerms (field.data ++ ('=' :: escapeChars value.data))
      = [field.data ++ ('=' :: escapeChars value.data)] := by
    have hne : field.data ++ ('=' :: escapeChars value.data) ≠ [] := by simp
    have h1 := splitTermsAux_plain (field.data ++ ['=']) [] (escapeChars value.data)
      (by
        intro c hcmem
        rcases List.mem_append.1 hcmem with hm | hm
        · exact ⟨(hfield c hm).1, (hfield c hm).2.1⟩
        · have : c = '=' := by simpa using hm
          subst this
          decide)
    simp only [splitTerms, hne, if_false]
    have h2 : field.data ++ ('=' :: escapeChars value.data)
        = (field.data ++ ['=']) ++ escapeChars value.data := by simp
    rw [h2, h1, splitTermsAux_escapeChars]
    simp
  have hterm : splitTerm [] (field.data ++ ('=' :: escapeChars value.data))
      = some (field.data, .equal, escapeChars value.data) := by
    rw [splitTerm_plain field.data [] _ (fun c hm => ⟨(hfield c hm).2.2.1, (hfield c hm).2.2.2⟩)]
    simpa using splitTerm_equal field.data _ (escapeChars_head value.data)
  unfold ParseSelector
  rw [hdata, hsplit]
  have hne : field.data ++ ('=' :: escapeChars value.data) ≠ [] := by simp
  simp [parseTerms, hne, hterm, unescapeChars_escapeChars]

end fields

/-- The selector built for the empty name is `nothingSelector`: its own `Matches`
is false on every field set, but the list-watch only ever uses its string, which
is empty. -/
theorem selector_empty_name (ls : fields.Fields) :
    WatchService.selector "" = fields.Nothing
      ∧ (WatchService.selector "").Matches ls = false
      ∧ (WatchService.selector "").toString = "" :=
  ⟨rfl, rfl, rfl⟩

theorem fieldSet_name (svc : Service) : svc.fieldSet "metadata.name" = svc.Name := by
  simp [Service.fieldSet]

/-- C2: `WatchService` hands the namespace to the list-watch unchanged; for every
non-empty name the filter of the list-watch lets through exactly the services
whose `metadata.name` equals the name; and for the empty name the filter lets
every service through (the list-watch sends the empty field-selector string, not
a filter that selects nothing). -/
theorem WatchService_filter (name ns : String) (hname : name ≠ "") (svc : Service) :
    ((WatchService.watchlist name ns).selects svc = true ↔ svc.Name = name)
      ∧ (WatchService.watchlist "" ns).selects svc = true
      ∧ (WatchService.watchlist name ns).ns = ns
      ∧ (WatchService.watchlist "" ns).ns = ns
      ∧ (WatchService.watchlist name ns).resource = "services" := by
  refine ⟨?_, rfl, rfl, rfl, rfl⟩
  have hparse := fields.ParseSelector_hasTerm "metadata.name" name (by decide)
  simp [WatchService.watchlist, WatchService.selector, hname, cache.NewListWatchFromClient,
    cache.ListWatch.selects, fields.selects, fields.OneTermEqualSelector, hparse,
    fields.Requirement.Matches, fieldSet_name]

/-- C2, at the name `web`: the filter lets `web` through and the namespace is
`default`. -/
theorem WatchService_filter_witness :
    ("web" ≠ "") ∧ (WatchService.watchlist "web" "default").selects webSvc = true
      ∧ (WatchService.watchlist "" "default").selects webSvc = true :=
  ⟨by decide,
   (WatchService_filter "web" "default" (by decide) webSvc).1.2 rfl,
   (WatchService_filter "web" "default" (by decide) webSvc).2.1⟩

end KtConnect
